import Mathlib

/-!
# Verification of the ipyhealth record-formatting engine

A shallow embedding of `ipyhealth/parser.py`: the field formatters
(`format_type`, `format_string`, `format_numerics`, `format_no_format`,
`format_date`, `format_device`, `format_standard`), the record formatter
(`AppleHealthFormatter.format_values`), the table builder
(`AppleHealthParser.create_dataframe`), and the workout-route date filter
(`get_file_date` / `filter_nodes` / `get_gpx_files`).

Python strings are modelled as Lean `String`/`List Char` (the inputs of
interest are ASCII plus a few named Unicode code points); Python floats are
modelled as exact rationals `ℚ`; Python exceptions are modelled with
`Except PyError`.
-/

/-- The exception kinds raised by the relevant Python code paths. -/
inductive PyError where
  | keyError
  | indexError
  | nameError
  | valueError
  | typeError
  | notImplError
  deriving DecidableEq, Repr

instance {ε α : Type} [DecidableEq ε] [DecidableEq α] : DecidableEq (Except ε α)
  | .ok a, .ok b => decidable_of_iff (a = b) (by simp)
  | .ok _, .error _ => isFalse (by simp)
  | .error _, .ok _ => isFalse (by simp)
  | .error e, .error f => decidable_of_iff (e = f) (by simp)

/-- ASCII uppercase test, `[A-Z]` of the `inflection.underscore` regexes. -/
def isUp (c : Char) : Bool := 'A' ≤ c && c ≤ 'Z'

/-- ASCII lowercase test, `[a-z]` of the `inflection.underscore` regexes. -/
def isLo (c : Char) : Bool := 'a' ≤ c && c ≤ 'z'

/-- ASCII digit test, `\d` of the `inflection.underscore` regexes
(the names in this data set are ASCII). -/
def isDig (c : Char) : Bool := '0' ≤ c && c ≤ '9'

/-- First substitution of `inflection.underscore`:
`re.sub(r"([A-Z]+)([A-Z][a-z])", r"\1_\2", word)`.  For these patterns the
left-to-right scan-and-replace is equivalent to inserting `_` between two
adjacent uppercase letters whenever the second is followed by a lowercase
letter, which is what this structural recursion does. -/
def usub1 : List Char → List Char
  | a :: b :: c :: rest =>
    if isUp a && isUp b && isLo c then a :: '_' :: usub1 (b :: c :: rest)
    else a :: usub1 (b :: c :: rest)
  | l => l

/-- Second substitution of `inflection.underscore`:
`re.sub(r"([a-z\d])([A-Z])", r"\1_\2", word)`, i.e. insert `_` between a
lowercase letter or digit and an uppercase letter. -/
def usub2 : List Char → List Char
  | a :: b :: rest =>
    if (isLo a || isDig a) && isUp b then a :: '_' :: usub2 (b :: rest)
    else a :: usub2 (b :: rest)
  | l => l

/-- `inflection.underscore`: the two regex substitutions, then
`replace("-", "_")`, then `lower()` (ASCII lowering; the attribute names in
this data set are ASCII). -/
def underscore (s : String) : String :=
  String.mk (((usub2 (usub1 s.toList)).map
    (fun c => if c = '-' then '_' else c)).map Char.toLower)

/-- Fuel-driven worker for `removeTotal`; the fuel is the list length, which
bounds the number of recursion steps. -/
def removeTotalAux : Nat → List Char → List Char
  | 0, l => l
  | _ + 1, [] => []
  | n + 1, c :: rest =>
    if c = 't' && ['o', 't', 'a', 'l'].isPrefixOf rest then
      removeTotalAux n (rest.drop 4)
    else c :: removeTotalAux n rest

/-- `st_key.replace('total', '')` of `format_standard`: Python `str.replace`
removes every leftmost non-overlapping occurrence of `"total"`. -/
def removeTotal (l : List Char) : List Char := removeTotalAux l.length l

/-- The snake-cased quantity key computed by `format_standard`:
`underscore(st_key.replace('total', ''))`. -/
def standardKey (name : String) : String :=
  underscore (String.mk (removeTotal name.toList))

/-- `unit_val.startswith('k')` (a single-character prefix test). -/
def startsWithK (s : String) : Bool :=
  match s.toList with
  | c :: _ => c = 'k'
  | [] => false

/-- `AppleHealthFormatter.format_standard` (parser.py lines 109-142), with the
raw value already parsed to a number (`float(st_val)` is modelled as the exact
rational `st_val`).  The `NotImplementedError` raises are `.error
.notImplError`. -/
def format_standard (inputs : String × ℚ × String) : Except PyError (String × ℚ) :=
  let st_key := standardKey inputs.1
  let st_val := inputs.2.1
  let unit_val := inputs.2.2
  if st_key = "duration" then
    let col_name := st_key ++ "_min"
    if unit_val = "min" then .ok (col_name, st_val)
    else if unit_val = "sec" then .ok (col_name, st_val / 60)
    else .error .notImplError
  else if st_key = "distance" ∨ st_key = "energy_burned" then
    let col_name :=
      if startsWithK unit_val then st_key ++ "_" ++ unit_val
      else st_key ++ "_k" ++ unit_val
    if unit_val = "km" ∨ unit_val = "kcal" then .ok (col_name, st_val)
    else if unit_val = "m" ∨ unit_val = "cal" then .ok (col_name, st_val / 1000)
    else .error .notImplError
  else .error .notImplError

/-- Modelled from the spec: the claim's words say the formatter "strips the
'total' prefix from the quantity-type name"; this is that prefix-only
stripping, kept separate so it can be compared with the source's
`replace('total', '')`. -/
def specStripTotalName (s : String) : String :=
  if ['t', 'o', 't', 'a', 'l'].isPrefixOf s.toList then String.mk (s.toList.drop 5)
  else s

/-- The (quantity-key, unit) combinations `format_standard` accepts. -/
def supportedStandard (name unit : String) : Prop :=
  (standardKey name = "duration" ∧ (unit = "min" ∨ unit = "sec")) ∨
  ((standardKey name = "distance" ∨ standardKey name = "energy_burned") ∧
    (unit = "km" ∨ unit = "kcal" ∨ unit = "m" ∨ unit = "cal"))

instance (name unit : String) : Decidable (supportedStandard name unit) := by
  unfold supportedStandard; infer_instance

lemma standardKey_duration : standardKey "duration" = "duration" := by decide

lemma standardKey_totalDistance : standardKey "totalDistance" = "distance" := by decide

lemma standardKey_totalEnergyBurned : standardKey "totalEnergyBurned" = "energy_burned" := by
  decide

lemma startsWithK_km : startsWithK "km" = true := by decide

lemma startsWithK_kcal : startsWithK "kcal" = true := by decide

lemma startsWithK_m : startsWithK "m" = false := by decide

lemma startsWithK_cal : startsWithK "cal" = false := by decide

/-- C3 as stated fails on the code: the quantity-type name `"distotaltance"`
has no `"total"` *prefix* (prefix-stripping leaves it unchanged, and its
snake-cased form is not a supported quantity), yet `format_standard` accepts
it and returns the key `"distance_km"`, because the source removes *every*
occurrence of the substring `"total"`, not just a prefix. -/
theorem format_standard_total_prefix_counterexample :
    format_standard ("distotaltance", 1, "km") = .ok ("distance_km", 1) ∧
    specStripTotalName "distotaltance" = "distotaltance" ∧
    underscore (specStripTotalName "distotaltance") ≠ "distance" ∧
    underscore (specStripTotalName "distotaltance") ≠ "duration" ∧
    underscore (specStripTotalName "distotaltance") ≠ "energy_burned" := by
  refine ⟨?_, by decide, by decide, by decide, by decide⟩
  have h : standardKey "distotaltance" = "distance" := by decide
  simp [format_standard, h, startsWithK_km]

/-- C3 (amended): `format_standard` removes every occurrence of the substring
`"total"` (not only a prefix) from the quantity-type name, snake-cases it, and
returns the standardized pair: for duration, unit `"min"` passes the value
through and `"sec"` divides by 60 with output name `"duration_min"`; for
distance and energy_burned, `"km"`/`"kcal"` pass through and `"m"`/`"cal"`
divide by 1000, the output name being suffixed with the k-prefixed unit, so
the suffix matches the collapsed unit. -/
theorem format_standard_conversions :
    ∀ (name : String) (v : ℚ),
      (standardKey name = "duration" →
        format_standard (name, v, "min") = .ok ("duration_min", v) ∧
        format_standard (name, v, "sec") = .ok ("duration_min", v / 60)) ∧
      (standardKey name = "distance" →
        format_standard (name, v, "km") = .ok ("distance_km", v) ∧
        format_standard (name, v, "m") = .ok ("distance_km", v / 1000)) ∧
      (standardKey name = "energy_burned" →
        format_standard (name, v, "kcal") = .ok ("energy_burned_kcal", v) ∧
        format_standard (name, v, "cal") = .ok ("energy_burned_kcal", v / 1000)) := by
  intro name v
  refine ⟨fun h => ?_, fun h => ?_, fun h => ?_⟩ <;>
    simp [format_standard, h, startsWithK_km, startsWithK_kcal, startsWithK_m,
      startsWithK_cal]

/-- Witness for the amended C3 theorem at the distance fixture. -/
theorem format_standard_conversions_witness :
    format_standard ("totalDistance", (5 : ℚ) / 2, "km") = .ok ("distance_km", (5 : ℚ) / 2) ∧
    format_standard ("totalDistance", (5 : ℚ) / 2, "m") =
      .ok ("distance_km", (5 : ℚ) / 2 / 1000) :=
  (format_standard_conversions "totalDistance" ((5 : ℚ) / 2)).2.1 (by decide)

/-- C4: `format_standard` raises the unsupported-unit error
(`NotImplementedError`) exactly when the (quantity-type, unit) combination is
outside the supported table, and on every supported combination it returns
normally. -/
theorem format_standard_error_iff_unsupported :
    ∀ (name unit : String) (v : ℚ),
      (format_standard (name, v, unit) = .error .notImplError ↔
        ¬ supportedStandard name unit) ∧
      (supportedStandard name unit → ∃ p, format_standard (name, v, unit) = .ok p) := by
  intro name unit v
  simp only [format_standard, supportedStandard]
  split_ifs with h1 h2 h3 h4 h5 h6 <;> simp_all <;> tauto

/-- Witness for C4 at a supported and an unsupported fixture
(distance in `"cm"`, as in the spec's example). -/
theorem format_standard_error_iff_unsupported_witness :
    format_standard ("totalDistance", 25000, "cm") = .error .notImplError ∧
    ∃ p, format_standard ("totalDistance", (5 : ℚ) / 2, "km") = .ok p := by
  constructor
  · exact (format_standard_error_iff_unsupported "totalDistance" "cm" 25000).1.mpr
      (by decide)
  · exact (format_standard_error_iff_unsupported "totalDistance" "km" ((5 : ℚ) / 2)).2
      (by decide)

/-- C9: standardizing a duration of `60 * v` seconds and of `v` minutes gives
the same canonical `(name, value)` pair, and in particular 600 sec and 10 min
both normalize to `duration_min = 10`. -/
theorem format_standard_sec_min_roundtrip :
    (∀ v : ℚ, format_standard ("duration", 60 * v, "sec") =
      format_standard ("duration", v, "min")) ∧
    format_standard ("duration", 600, "sec") = .ok ("duration_min", 10) ∧
    format_standard ("duration", 10, "min") = .ok ("duration_min", 10) := by
  refine ⟨fun v => ?_, ?_, ?_⟩ <;> simp [format_standard, standardKey_duration] <;>
    first
      | ring
      | norm_num

/-! ## The string, device and type formatters -/

/-- Latin small letter e with acute, U+00E9. -/
def eAcute : Char := Char.ofNat 0xE9

/-- Combining acute accent, U+0301. -/
def combAcute : Char := Char.ofNat 0x301

/-- Per-character Unicode compatibility decomposition, modelling
`unicodedata.normalize("NFKD", ...)` on the character domain exercised here:
ASCII characters and U+2019 decompose to themselves, U+00E9 decomposes
canonically to U+0065 U+0301.  (No combining-mark reordering is needed on
this domain.) -/
def charNFKD (c : Char) : List Char := if c = eAcute then ['e', combAcute] else [c]

/-- `normalize("NFKD", s)` of `format_string`. -/
def nfkd (s : String) : String := String.mk (s.toList.flatMap charNFKD)

/-- `AppleHealthFormatter.format_string` (parser.py lines 71-75): snake-cased
name and NFKD-normalized value. -/
def format_string (inputs : String × String) : String × String :=
  (underscore inputs.1, nfkd inputs.2)

/-- Recombination of a canonically decomposed sequence on this character
domain: `e` followed by U+0301 recombines to U+00E9. -/
def recompose : List Char → List Char
  | [] => []
  | [a] => [a]
  | a :: b :: rest =>
    if a = 'e' ∧ b = combAcute then eAcute :: recompose rest
    else a :: recompose (b :: rest)

/-- Modelled from the spec: the claim says the value is "Unicode-normalized by
canonical decomposition followed by canonical recombination (NFC)"; this is
that NFC normalization on the same character domain (the canonical and
compatibility decompositions coincide there), kept separate for comparison
with the source's NFKD call. -/
def nfcSpec (s : String) : String :=
  String.mk (recompose (s.toList.flatMap charNFKD))

/-- Modelled from the spec: `format_string` as the claim describes it, with
NFC in place of the source's NFKD. -/
def format_string_specNFC (inputs : String × String) : String × String :=
  (underscore inputs.1, nfcSpec inputs.2)

lemma charNFKD_flatMap_idem (c : Char) :
    (charNFKD c).flatMap charNFKD = charNFKD c := by
  by_cases h : c = eAcute
  · subst h; decide
  · simp [charNFKD, h]

/-- C8 fails as stated: on the value `"é"` (U+00E9) the code's NFKD leaves the
decomposed sequence `e` + U+0301, while the claimed canonical decomposition +
recombination (NFC) returns the precomposed `"é"`; the two results differ. -/
theorem format_string_nfc_counterexample :
    format_string ("value", String.mk [eAcute]) = ("value", String.mk ['e', combAcute]) ∧
    format_string_specNFC ("value", String.mk [eAcute]) = ("value", String.mk [eAcute]) ∧
    String.mk ['e', combAcute] ≠ String.mk [eAcute] := by decide

/-- C8 (amended): for every raw (name, value) pair, `format_string` returns
the snake-cased name together with the value normalized by Unicode
compatibility decomposition (NFKD) without recombination; that normalization
is idempotent (the result is in normal form). -/
theorem format_string_nfkd :
    ∀ (n v : String),
      format_string (n, v) = (underscore n, nfkd v) ∧
      nfkd (nfkd v) = nfkd v := by
  intro n v
  refine ⟨rfl, ?_⟩
  show String.mk ((String.mk (v.toList.flatMap charNFKD)).toList.flatMap charNFKD) = _
  have : (String.mk (v.toList.flatMap charNFKD)).toList = v.toList.flatMap charNFKD := rfl
  rw [this, List.flatMap_assoc]
  simp only [charNFKD_flatMap_idem]
  rfl

/-- `string.punctuation` with `'.'` removed (the `PUNC` constant of
parser.py line 36), as character codes. -/
def PUNC : List Char :=
  [33, 34, 35, 36, 37, 38, 39, 40, 41, 42, 43, 44, 45, 47, 58, 59, 60, 61, 62,
   63, 64, 91, 92, 93, 94, 95, 96, 123, 124, 125, 126].map Char.ofNat

/-- The whitespace characters stripped by Python `str.strip()`. -/
def WS : List Char := [' ', '\t', '\n', '\r', Char.ofNat 11, Char.ofNat 12]

/-- Python `str.strip(chars)`: drop members of `bad` from both ends. -/
def stripChars (bad : List Char) (l : List Char) : List Char :=
  ((l.dropWhile (bad.contains ·)).reverse.dropWhile (bad.contains ·)).reverse

/-- Python `str.split(sep)` for a one-character separator: splits at every
occurrence, keeping empty pieces. -/
def splitOnChar (sep : Char) : List Char → List (List Char)
  | [] => [[]]
  | c :: rest =>
    let r := splitOnChar sep rest
    if c = sep then [] :: r
    else
      match r with
      | h :: t => (c :: h) :: t
      | [] => [[c]]

/-- Python `sep.join(parts)` for a one-character separator. -/
def joinSep (sep : Char) : List (List Char) → List Char
  | [] => []
  | [x] => x
  | x :: y :: rest => x ++ sep :: joinSep sep (y :: rest)

/-- The inner `clean_device_info` of `format_device` (parser.py lines
99-103): split one component on `":"`, build the key
`"device_" + label.strip(PUNC).strip().lower()` and the value
`":".join(rest).strip(PUNC).strip()`. -/
def clean_device_info (device : List Char) : String × String :=
  let info := splitOnChar ':' device
  ("device_" ++ String.mk ((stripChars WS (stripChars PUNC (info.headD []))).map Char.toLower),
   String.mk (stripChars WS (stripChars PUNC (joinSep ':' info.tail))))

/-- First-match association-list lookup, the model of looking a key up in a
Python mapping built from these pairs (Python dict keys are unique, so the
first match is the match). -/
def alookup {α : Type} (k : String) : List (String × α) → Option α
  | [] => none
  | (k2, v) :: rest => if k2 = k then some v else alookup k rest

/-- Deduplication keeping the first occurrence of each key. -/
def dedupFirst : List String → List String
  | [] => []
  | k :: rest => k :: (dedupFirst rest).filter (fun x => x != k)

/-- `dict(ChainMap(*maps))` for singleton maps `ps`: iteration order is the
reversed map order with first-seen positions kept (`ChainMap.__iter__` updates
from `reversed(self.maps)`), and each key's value comes from the *earliest*
map containing it (`ChainMap.__getitem__` searches `self.maps` left to
right). -/
def dictChainMap (ps : List (String × String)) : List (String × String) :=
  (dedupFirst (ps.reverse.map Prod.fst)).map (fun k => (k, (alookup k ps).getD ""))

/-- `AppleHealthFormatter.format_device` (parser.py lines 94-107). -/
def format_device (device_string : String) : List (String × String) :=
  let devices := (splitOnChar ',' device_string.toList).filter (fun d => d.contains ':')
  dictChainMap (devices.map clean_device_info)

lemma alookup_eq_none {α : Type} {k : String} :
    ∀ {ps : List (String × α)}, alookup k ps = none ↔ k ∉ ps.map Prod.fst := by
  intro ps
  induction ps with
  | nil => simp [alookup]
  | cons p rest ih =>
    obtain ⟨k2, v⟩ := p
    by_cases h : k2 = k
    · subst h; simp [alookup]
    · simp [alookup, h, ih, Ne.symm h]

lemma alookup_graph (f : String → String) (k : String) :
    ∀ (keys : List String),
      alookup k (keys.map (fun k2 => (k2, f k2))) =
        if k ∈ keys then some (f k) else none := by
  intro keys
  induction keys with
  | nil => simp [alookup]
  | cons k2 rest ih =>
    by_cases h : k2 = k
    · subst h; simp [alookup]
    · simp [alookup, h, ih, Ne.symm h]

lemma mem_dedupFirst {k : String} : ∀ {l : List String}, k ∈ dedupFirst l ↔ k ∈ l := by
  intro l
  induction l with
  | nil => simp [dedupFirst]
  | cons a rest ih =>
    by_cases h : k = a
    · subst h; simp [dedupFirst]
    · simp [dedupFirst, h, List.mem_filter, ih]

/-- Looking a key up in `dict(ChainMap(*maps))` agrees with the first-match
lookup over the component pairs: the *earliest* component wins. -/
lemma dictChainMap_alookup (ps : List (String × String)) (k : String) :
    alookup k (dictChainMap ps) = alookup k ps := by
  unfold dictChainMap
  rw [alookup_graph]
  by_cases hk : k ∈ ps.map Prod.fst
  · have hk2 : k ∈ dedupFirst (ps.reverse.map Prod.fst) := by
      rw [mem_dedupFirst, List.map_reverse, List.mem_reverse]
      exact hk
    rw [if_pos hk2]
    cases hv : alookup k ps with
    | none => exact absurd (alookup_eq_none.mp hv) (by simpa using hk)
    | some v => simp [hv]
  · have hk2 : k ∉ dedupFirst (ps.reverse.map Prod.fst) := by
      rw [mem_dedupFirst, List.map_reverse, List.mem_reverse]
      exact hk
    rw [if_neg hk2]
    exact (alookup_eq_none.mpr hk).symm

/-- The composite device string of the spec's fixture. -/
def exampleDeviceString : String :=
  "Name:Apple Watch,Manufacturer:Apple Inc.,Model:Watch,HardwareVersion:Watch5,SoftwareVersion:6.1.3,HKDevice:0x"

/-- C6 fails as stated: in `"A:1,A:2"` both components produce the key
`device_a`; the claim says the *later* component's value (`"2"`) wins, but
`dict(ChainMap(...))` takes the value from the *earliest* map containing the
key, so the code returns `"1"`. -/
theorem format_device_last_wins_counterexample :
    format_device "A:1,A:2" = [("device_a", "1")] ∧
    clean_device_info ['A', ':', '2'] = ("device_a", "2") ∧
    ("1" : String) ≠ "2" := by decide

/-- C6 (amended): `format_device` splits on commas, discards components
without a colon, splits each remaining component at its first colon into a
`device_`-prefixed, lower-cased, punctuation/whitespace-stripped label and a
stripped value; on exact key collision the *earliest* component's value wins
(lookup in the result equals first-match lookup over the cleaned components);
and the fixture device string decomposes into exactly the six `device_*`
entries below. -/
theorem format_device_decomposition :
    (∀ (ds k : String),
      alookup k (format_device ds) =
        alookup k (((splitOnChar ',' ds.toList).filter (fun d => d.contains ':')).map
          (fun d => clean_device_info d))) ∧
    format_device exampleDeviceString =
      [("device_hkdevice", "0x"),
       ("device_softwareversion", "6.1.3"),
       ("device_hardwareversion", "Watch5"),
       ("device_model", "Watch"),
       ("device_manufacturer", "Apple Inc."),
       ("device_name", "Apple Watch")] := by
  constructor
  · intro ds k
    exact dictChainMap_alookup _ k
  · decide

/-! ## Dates, typed values and the remaining field formatters -/

/-- A calendar date, the payload of a parsed timestamp that the claims
compare (the formatter keeps full datetimes; only the date part matters for
ordering and filtering in the claims, and the fixtures used here are
dates). -/
structure PDate where
  year : Nat
  month : Nat
  day : Nat
  deriving DecidableEq, Repr

/-- Linear rank of a date (months and days of parsed dates are two-digit, so
this is lexicographic). -/
def PDate.rank (d : PDate) : Nat := (d.year * 100 + d.month) * 100 + d.day

/-- A canonical-row value: string, number, or parsed date. -/
inductive Value where
  | str : String → Value
  | num : ℚ → Value
  | date : PDate → Value
  deriving DecidableEq, Repr

/-- Digit run to a natural number (most significant first). -/
def natOfDigits (l : List Char) : Nat :=
  l.foldl (fun a c => a * 10 + (c.toNat - 48)) 0

/-- Python `float(s)` on the plain decimal text this export contains:
optional sign, digits, optional fraction.  (Exponent forms, `inf`/`nan` and
surrounding whitespace are outside the modelled input domain.)  `none` models
the `ValueError` raise. -/
def parseFloat (s : String) : Option ℚ :=
  let signed : ℚ × List Char :=
    match s.toList with
    | '-' :: r => (-1, r)
    | '+' :: r => (1, r)
    | r => (1, r)
  let ip := signed.2.takeWhile isDig
  let rest := signed.2.dropWhile isDig
  match rest with
  | [] => if ip.isEmpty then none else some (signed.1 * natOfDigits ip)
  | '.' :: frac =>
    if frac.all isDig ∧ ¬(ip.isEmpty ∧ frac.isEmpty) then
      some (signed.1 * ((natOfDigits ip : ℚ) + (natOfDigits frac : ℚ) / (10 : ℚ) ^ frac.length))
    else none
  | _ => none

/-- A `\d{4}-\d{2}-\d{2}` match at the head of the character list, parsed to
its calendar date. -/
def dateAtHead : List Char → Option PDate
  | a :: b :: c :: d :: '-' :: e :: f :: '-' :: g :: h :: _ =>
    if [a, b, c, d, e, f, g, h].all isDig then
      some ⟨natOfDigits [a, b, c, d], natOfDigits [e, f], natOfDigits [g, h]⟩
    else none
  | _ => none

/-- `dateutil.parser.parse` on the ISO-prefixed date strings this export
contains (`YYYY-MM-DD`, optionally followed by a time): the calendar-date
part.  `none` models the parse error on other text. -/
def parseDate (s : String) : Option PDate :=
  dateAtHead s.toList

/-- `AppleHealthFormatter.format_no_format` (parser.py lines 83-86). -/
def format_no_format (inputs : String × String) : String × Value :=
  (underscore inputs.1, .str inputs.2)

/-- `AppleHealthFormatter.format_numerics` (parser.py lines 77-81):
`float(...)` failure is the `ValueError` raise. -/
def format_numerics (inputs : String × String) : Except PyError (String × Value) :=
  match parseFloat inputs.2 with
  | some q => .ok (underscore inputs.1, .num q)
  | none => .error .valueError

/-- `AppleHealthFormatter.format_date` (parser.py lines 88-92): unparseable
date text is the parser's `ValueError` raise. -/
def format_date (inputs : String × String) : Except PyError (String × Value) :=
  match parseDate inputs.2 with
  | some d => .ok (underscore inputs.1, .date d)
  | none => .error .valueError

/-- `re.findall` for the template's decomposition patterns, which all have
the shape `^HK(.+)<sep>(.+)$` (two greedy capture groups around a literal
separator).  The pattern is represented by its literal `sep`.  Anchored and
without `re.MULTILINE`/`re.DOTALL`, such a pattern matches at most once, the
first group is greedy (largest split), `.` does not match a newline, and `$`
is modelled as end-of-string (inputs here contain no trailing newline). -/
def findallType (sep : String) (s : String) : List (String × String) :=
  match s.toList with
  | 'H' :: 'K' :: rest =>
    let sl := sep.toList
    let cands := (List.range (rest.length + 1)).filterMap (fun i =>
      let g1 := rest.take i
      let r2 := rest.drop i
      if 0 < i ∧ sl.isPrefixOf r2 then
        let g2 := r2.drop sl.length
        if g2 ≠ [] ∧ g1.contains '\n' = false ∧ g2.contains '\n' = false then
          some (String.mk g1, String.mk g2)
        else none
      else none)
    match cands.getLast? with
    | some p => [p]
    | none => []
  | _ => []

/-- `AppleHealthFormatter.format_type` (parser.py lines 56-69):
`re.findall(pattern, value)[0]` unpacked into the fixed two-key mapping;
`[0]` of an empty match list is the `IndexError` raise. -/
def format_type (sep : String) (activity : String) : Except PyError (List (String × Value)) :=
  match findallType sep activity with
  | [] => .error .indexError
  | (g1, g2) :: _ => .ok [("activity_type", .str g1), ("activity", .str g2)]

/-- C7: on the fixture pattern/input, `format_type` returns exactly
`{activity_type: "Workout", activity: "Yoga"}`; a decomposition pattern
(anchored, as all the template's patterns are) matches at most once, and
`format_type` succeeds exactly when it matches once — equivalently, it fails
exactly when the pattern does not match exactly once. -/
theorem format_type_decomposition :
    format_type "ActivityType" "HKWorkoutActivityTypeYoga" =
      .ok [("activity_type", .str "Workout"), ("activity", .str "Yoga")] ∧
    (∀ (sep s : String), (findallType sep s).length ≤ 1) ∧
    (∀ (sep s : String),
      (∃ d, format_type sep s = .ok d) ↔ (findallType sep s).length = 1) ∧
    (∀ (sep s : String),
      format_type sep s = .error .indexError ↔ (findallType sep s).length ≠ 1) := by
  have hlen : ∀ (sep s : String), (findallType sep s).length ≤ 1 := by
    intro sep s
    unfold findallType
    split
    · dsimp only
      split <;> simp
    · simp
  refine ⟨by decide, hlen, ?_, ?_⟩
  · intro sep s
    cases h : findallType sep s with
    | nil => simp [format_type, h]
    | cons p rest =>
      have : rest = [] := by
        have := hlen sep s
        rw [h] at this
        simpa using this
      subst this
      obtain ⟨g1, g2⟩ := p
      simp [format_type, h]
  · intro sep s
    cases h : findallType sep s with
    | nil => simp [format_type, h]
    | cons p rest =>
      have : rest = [] := by
        have := hlen sep s
        rw [h] at this
        simpa using this
      subst this
      obtain ⟨g1, g2⟩ := p
      simp [format_type, h]

/-! ## The record formatter `format_values` -/

/-- One rule-group's attribute list in the format template: plain attribute
names, or — as the bundled template declares for the `standard` rule-kind —
(quantity-attribute, unit-attribute) pairs. -/
inductive AttrGroup where
  | names : List String → AttrGroup
  | pairs : List (String × String) → AttrGroup
  deriving DecidableEq, Repr

/-- One category's entry in `NODES` (the bundled `activity_format.json`):
the ordered `formats` rule-groups, and the optional type-decomposition
pattern, represented by its literal separator (all the template's patterns
have the shape `^HK(.+)<sep>(.+)$`); `none` models a category entry without a
`pattern` key. -/
structure NodeSpec where
  formats : List (String × AttrGroup)
  pattern : Option String
  deriving DecidableEq, Repr

/-- A raw record: the attribute mapping of one XML node. -/
abbrev RawRecord : Type := List (String × String)

/-- A canonical row under construction. -/
abbrev Row : Type := List (String × Value)

/-- `{**fv, **{k: v}}`: Python dict update — an existing key keeps its
position and takes the new value, a new key is appended. -/
def updateVal (fv : Row) (k : String) (v : Value) : Row :=
  if fv.any (fun p => p.1 == k) then
    fv.map (fun p => if p.1 = k then (k, v) else p)
  else fv ++ [(k, v)]

/-- `{**fv, **dict(d)}` (parser.py line 197): fold the new pairs into the
accumulated row, later pairs overwriting earlier ones on exact key
collision. -/
def mergeDict (fv : Row) (d : Row) : Row :=
  d.foldl (fun acc p => updateVal acc p.1 p.2) fv

/-- `format_standard` as invoked from `format_values`, where the quantity
value is the raw attribute *string* and `float(st_val)` is evaluated inside
the selected branch (a non-numeric value is the `ValueError` raise). -/
def format_standardS (inputs : String × String × String) : Except PyError (String × Value) :=
  let st_key := standardKey inputs.1
  let st_val := inputs.2.1
  let unit_val := inputs.2.2
  if st_key = "duration" then
    let col_name := st_key ++ "_min"
    if unit_val = "min" then
      match parseFloat st_val with
      | some q => .ok (col_name, .num q)
      | none => .error .valueError
    else if unit_val = "sec" then
      match parseFloat st_val with
      | some q => .ok (col_name, .num (q / 60))
      | none => .error .valueError
    else .error .notImplError
  else if st_key = "distance" ∨ st_key = "energy_burned" then
    let col_name :=
      if startsWithK unit_val then st_key ++ "_" ++ unit_val
      else st_key ++ "_k" ++ unit_val
    if unit_val = "km" ∨ unit_val = "kcal" then
      match parseFloat st_val with
      | some q => .ok (col_name, .num q)
      | none => .error .valueError
    else if unit_val = "m" ∨ unit_val = "cal" then
      match parseFloat st_val with
      | some q => .ok (col_name, .num (q / 1000))
      | none => .error .valueError
    else .error .notImplError
  else .error .notImplError

/-- The loop state of `format_values`: the accumulated row `fv`, and the
current binding of the Python local `d` — `none` while `d` is unbound,
`some l` when a further `dict(d)` would yield the pairs `l` (the pairs
themselves for a dict-valued `d`; `[]` for a generator already consumed by
the previous `dict(d)` call). -/
structure FVState where
  fv : Row
  lastD : Option Row

/-- One iteration of the `format_values` loop (parser.py lines 150-197) for
the rule-group `(ftype, group)`.  Mirrors the source: for non-`standard`
kinds the present attribute values are collected with `try/except KeyError:
pass` and then zipped against the *full* declared name list; `type` reads the
template's pattern and indexes `[0]` of the match-tuple list (empty →
`IndexError`); `device` with no collected values reuses the leftover `d`
(`NameError` if unbound); `standard` indexes the record without a guard
(`KeyError` on a missing attribute); an unknown rule-kind raises
`NotImplementedError`.  A `pairs` group under a non-`standard` kind collects
nothing (tuple keys never occur in the attribute dict), and a `names` group
under `standard` fails tuple-unpacking (`ValueError`; the bundled template
declares pairs there). -/
def processGroup (tmpl : NodeSpec) (rec : RawRecord) (st : FVState)
    (ftype : String) (group : AttrGroup) : Except PyError FVState :=
  if ftype ≠ "standard" then
    let anames : List String :=
      match group with
      | .names l => l
      | .pairs _ => []
    let attr_vals : List String := anames.filterMap (fun a => alookup a rec)
    if ftype = "type" then
      match tmpl.pattern with
      | none => .error .keyError
      | some pat => do
        let ds ← attr_vals.mapM (fun v => format_type pat v)
        match ds with
        | [] => .error .indexError
        | d :: _ => .ok ⟨mergeDict st.fv d, some d⟩
    else if ftype = "string" then
      let d := (anames.zip attr_vals).map
        (fun p => ((format_string p).1, Value.str (format_string p).2))
      .ok ⟨mergeDict st.fv d, some []⟩
    else if ftype = "no_format" then
      let d := (anames.zip attr_vals).map format_no_format
      .ok ⟨mergeDict st.fv d, some []⟩
    else if ftype = "device" then
      match attr_vals with
      | [] =>
        match st.lastD with
        | none => .error .nameError
        | some prev => .ok ⟨mergeDict st.fv prev, some prev⟩
      | v :: _ =>
        let d := (format_device v).map (fun p => (p.1, Value.str p.2))
        .ok ⟨mergeDict st.fv d, some d⟩
    else if ftype = "date" then do
      let d ← (anames.zip attr_vals).mapM format_date
      .ok ⟨mergeDict st.fv d, some []⟩
    else if ftype = "numerics" then do
      let d ← (anames.zip attr_vals).mapM format_numerics
      .ok ⟨mergeDict st.fv d, some []⟩
    else .error .notImplError
  else
    match group with
    | .pairs prs => do
      let vals ← prs.mapM (fun p =>
        match alookup p.1 rec with
        | some v => Except.ok v
        | none => Except.error PyError.keyError)
      let units ← prs.mapM (fun p =>
        match alookup p.2 rec with
        | some v => Except.ok v
        | none => Except.error PyError.keyError)
      let d ← ((prs.map Prod.fst).zip (vals.zip units)).mapM
        (fun t => format_standardS (t.1, t.2.1, t.2.2))
      .ok ⟨mergeDict st.fv d, some []⟩
    | .names _ => .error .valueError

/-- `AppleHealthFormatter.format_values` (parser.py lines 144-199): fold the
template's rule-groups over the raw record, returning the flat canonical
row. -/
def format_values (tmpl : NodeSpec) (rec : RawRecord) : Except PyError Row :=
  (tmpl.formats.foldlM (fun st p => processGroup tmpl rec st p.1 p.2)
    (⟨[], none⟩ : FVState)).map FVState.fv

/-- C1 fails on the code (spec intent vs. implementation slip): with the
rule-group `("string", ["a", "b"])` and a record containing only `b`, the
filtered value list is zipped against the full declared name list, so the
value read from attribute `"b"` ends up under the key `"a"` — not under the
snake-cased name of the attribute it was read from; a `standard` rule-group
whose quantity attribute is absent raises `KeyError` instead of being
skipped; and a `type` rule-group with no present attribute raises
`IndexError` instead of contributing nothing. -/
theorem format_values_missing_attribute_bug :
    format_values ⟨[("string", .names ["a", "b"])], none⟩ [("b", "v")] =
      .ok [("a", .str "v")] ∧
    format_values ⟨[("standard", .pairs [("q", "u")])], none⟩ [] =
      .error .keyError ∧
    format_values ⟨[("type", .names ["t"])], some "ActivityType"⟩ [] =
      .error .indexError := by decide

/-! ## The category table builder `create_dataframe` -/

/-- The sort key `sort_values(by=date_col)` compares: the date cell of a row.
pandas sorts the datetime column ascending with missing values (NaT) last;
`none` ranks like a missing value (a non-date cell in the date column is
outside the modelled domain). -/
def rowKey (col : String) (r : Row) : Option Nat :=
  match alookup col r with
  | some (.date d) => some d.rank
  | _ => none

/-- Ascending comparison of sort keys, missing values last. -/
def keyLeB : Option Nat → Option Nat → Bool
  | _, none => true
  | none, some _ => false
  | some a, some b => a ≤ b

lemma keyLeB_total (x y : Option Nat) : keyLeB x y = true ∨ keyLeB y x = true := by
  cases x <;> cases y <;> simp [keyLeB] <;> omega

lemma keyLeB_trans (x y z : Option Nat) (h1 : keyLeB x y = true) (h2 : keyLeB y z = true) :
    keyLeB x z = true := by
  cases x <;> cases y <;> cases z <;> simp_all [keyLeB] <;> omega

/-- Row ordering by the date column, the order `sort_values` establishes. -/
def rle (col : String) (a b : Row) : Prop :=
  keyLeB (rowKey col a) (rowKey col b) = true

instance (col : String) : DecidableRel (rle col) := fun a b =>
  inferInstanceAs (Decidable (_ = true))

instance (col : String) : IsTotal Row (rle col) := ⟨fun a b => keyLeB_total _ _⟩

instance (col : String) : IsTrans Row (rle col) := ⟨fun _ _ _ => keyLeB_trans _ _ _⟩

/-- The contract of `df.sort_values(by=col)`: the output is a permutation of
the input rows, sorted by the date column.  pandas' default sort kind is
`quicksort`, which is documented as *not* stable, so the contract does not
constrain the relative order of tied rows. -/
def isPandasSort (f : String → List Row → List Row) : Prop :=
  ∀ (col : String) (rows : List Row),
    (f col rows).Perm rows ∧ List.Sorted (rle col) (f col rows)

/-- A deterministic function satisfying the `sort_values` contract, used to
instantiate theorems that quantify over every conforming sort. -/
def pandasSortModel (col : String) (rows : List Row) : List Row :=
  List.insertionSort (rle col) rows

/-- Another function satisfying the same contract: it sorts the reversed
input, so rows with equal keys come out in reversed relative order. -/
def revTieSort (col : String) (rows : List Row) : List Row :=
  List.insertionSort (rle col) rows.reverse

lemma isPandasSort_pandasSortModel : isPandasSort pandasSortModel := fun col rows =>
  ⟨List.perm_insertionSort _ _, List.sorted_insertionSort _ _⟩

lemma isPandasSort_revTieSort : isPandasSort revTieSort := fun col rows =>
  ⟨(List.perm_insertionSort _ _).trans (List.reverse_perm rows),
   List.sorted_insertionSort _ _⟩

/-- `nodes[chunksize*i : chunksize*(i+1)]` for `i in range(nprocs)` with
`chunksize = int(math.ceil(len(nodes)/float(nprocs)))` (parser.py lines
501-513); `math.ceil` of the float quotient equals exact ceiling division for
the list sizes in scope. -/
def chunks {α : Type} (nodes : List α) (nprocs : Nat) : List (List α) :=
  let chunksize := (nodes.length + nprocs - 1) / nprocs
  (List.range nprocs).map (fun i => (nodes.drop (chunksize * i)).take chunksize)

/-- The worker loop plus the read-back/concat loop (parser.py lines 490-526):
each chunk is formatted in order and the partial tables are concatenated in
worker-index order.  A formatting exception kills its worker, which surfaces
when its pickle is read back; this is modelled by propagating the first
formatting error in chunk order. -/
def runChunks (g : RawRecord → Except PyError Row) (ls : List (List RawRecord)) :
    Except PyError (List Row) :=
  (ls.mapM (List.mapM g)).map List.flatten

/-- `date_col = underscore(NODES[node_tag]['formats']['date'][0])` (parser.py
line 528): `KeyError` without a `date` rule-group, `IndexError` on an empty
attribute list, `TypeError` if the entry holds pairs (underscore of a
tuple). -/
def dateColOf (tmpl : NodeSpec) : Except PyError String :=
  match alookup "date" tmpl.formats with
  | none => .error .keyError
  | some (.names []) => .error .indexError
  | some (.names (a :: _)) => .ok (underscore a)
  | some (.pairs []) => .error .indexError
  | some (.pairs (_ :: _)) => .error .typeError

/-- `AppleHealthParser.create_dataframe` (parser.py lines 478-531),
parametrized by the sorting function `sort_values` uses: chunk, format,
concatenate in worker order, sort by the date column, reset the index to a
dense 0-based sequence (`List.enum`). -/
def create_dataframe (sortFn : String → List Row → List Row) (tmpl : NodeSpec)
    (records : List RawRecord) (nprocs : Nat) : Except PyError (List (Nat × Row)) :=
  (runChunks (format_values tmpl) (chunks records nprocs)).bind (fun rows =>
    (dateColOf tmpl).map (fun dc => (sortFn dc rows).enum))

lemma runChunks_eq (g : RawRecord → Except PyError Row) (ls : List (List RawRecord)) :
    runChunks g ls = ls.flatten.mapM g := by
  induction ls with
  | nil => rfl
  | cons c rest ih =>
    show ((c :: rest).mapM (List.mapM g)).map List.flatten = _
    rw [List.mapM_cons, List.flatten_cons, List.mapM_append, ← ih]
    unfold runChunks
    cases hx : List.mapM g c with
    | error e => rfl
    | ok x =>
      cases hrest : List.mapM (List.mapM g) rest with
      | error e => rfl
      | ok xs => rfl

lemma length_le_ceil_mul (len n : Nat) (h : 1 ≤ n) :
    len ≤ ((len + n - 1) / n) * n := by
  have hd := Nat.div_add_mod (len + n - 1) n
  have hm : (len + n - 1) % n < n := Nat.mod_lt _ (by omega)
  rw [Nat.mul_comm]
  generalize hq : (len + n - 1) / n = q at hd ⊢
  generalize hr : (len + n - 1) % n = r at hd hm
  generalize hm2 : n * q = m at hd ⊢
  omega

lemma flatten_slices {α : Type} :
    ∀ (n : Nat) (c : Nat) (l : List α), l.length ≤ c * n →
      ((List.range n).map (fun i => (l.drop (c * i)).take c)).flatten = l := by
  intro n
  induction n with
  | zero =>
    intro c l h
    have : l = [] := by
      cases l with
      | nil => rfl
      | cons a t => simp at h
    subst this
    rfl
  | succ n ih =>
    intro c l h
    rw [List.range_succ_eq_map, List.map_cons, List.map_map, List.flatten_cons]
    have hslice :
        ((fun i => (l.drop (c * i)).take c) ∘ Nat.succ) =
          (fun i => ((l.drop c).drop (c * i)).take c) := by
      funext i
      show (l.drop (c * (i + 1))).take c = _
      rw [List.drop_drop]
      congr 2
      ring
    rw [hslice, ih c (l.drop c) (by
      rw [List.length_drop]
      have hcn : c * (n + 1) = c * n + c := by ring
      omega)]
    simp [Nat.mul_zero, List.take_append_drop]

lemma chunks_flatten {α : Type} (l : List α) (n : Nat) (h : 1 ≤ n) :
    (chunks l n).flatten = l := by
  unfold chunks
  exact flatten_slices n _ l (length_le_ceil_mul l.length n h)

/-- C2: building a category table with worker-count 1 and with any
worker-count `N ≥ 1` over the same records yields identical results — the
contiguous ceiling-sized chunks concatenate in worker-index order back to the
original record sequence, so the input of the sort-after-concatenate step,
and hence the final table, is independent of `N` (for any sorting
function). -/
theorem create_dataframe_parallelism_transparent :
    ∀ (sortFn : String → List Row → List Row) (tmpl : NodeSpec)
      (records : List RawRecord) (N : Nat), 1 ≤ N →
      create_dataframe sortFn tmpl records N = create_dataframe sortFn tmpl records 1 := by
  intro f tmpl records N hN
  unfold create_dataframe
  rw [runChunks_eq, runChunks_eq, chunks_flatten records N hN,
    chunks_flatten records 1 (le_refl 1)]

/-- A fixture template: one `date` rule-group over `creationDate`. -/
def tmplW : NodeSpec := ⟨[("date", AttrGroup.names ["creationDate"])], none⟩

/-- Fixture records (out of date order, so the sort matters). -/
def recsW : List RawRecord :=
  [[("creationDate", "2020-04-06 18:11:00 +0200")],
   [("creationDate", "2020-04-05 10:00:00 +0200")]]

/-- Witness for C2: four workers and one worker agree on the fixture. -/
theorem create_dataframe_parallelism_transparent_witness :
    create_dataframe pandasSortModel tmplW recsW 4 =
      create_dataframe pandasSortModel tmplW recsW 1 :=
  create_dataframe_parallelism_transparent pandasSortModel tmplW recsW 4 (by decide)

/-- Stability of a sort with respect to the date column: for every key, the
tied rows appear in the output in the same relative order as in the input. -/
def tiesPreserved (col : String) (input output : List Row) : Prop :=
  ∀ k : Option Nat,
    output.filter (fun r => decide (rowKey col r = k)) =
      input.filter (fun r => decide (rowKey col r = k))

/-- A fixture row with date 2020-01-01 and marker `"a"`. -/
def rowA : Row := [("d", Value.date ⟨2020, 1, 1⟩), ("x", Value.str "a")]

/-- A fixture row with the same date and marker `"b"`. -/
def rowB : Row := [("d", Value.date ⟨2020, 1, 1⟩), ("x", Value.str "b")]

/-- C5's stability part fails on the code: `sort_values` is called with the
default `quicksort` kind, whose contract (a sorted permutation) does not fix
the order of ties, and a conforming sort exists (`revTieSort`) that reorders
the two equal-dated fixture rows.  So "ties retain original relative order"
is not guaranteed by the code. -/
theorem create_dataframe_stable_sort_counterexample :
    ¬ (∀ (f : String → List Row → List Row), isPandasSort f →
        ∀ (col : String) (rows : List Row), tiesPreserved col rows (f col rows)) := by
  intro hclaim
  have h2 := hclaim revTieSort isPandasSort_revTieSort "d" [rowA, rowB]
    (some (PDate.rank ⟨2020, 1, 1⟩))
  revert h2
  decide

/-- C5 (amended): for every sorting function satisfying the `sort_values`
contract (sorted permutation — the code requests pandas' default quicksort,
which is not guaranteed stable), every finished category table has a
non-decreasing date column across the row index, and the row index is reset
to the dense 0-based sequence `0, 1, 2, ...`; the relative order of rows with
equal dates is not guaranteed. -/
theorem create_dataframe_sorted_and_reindexed :
    ∀ (f : String → List Row → List Row), isPandasSort f →
    ∀ (tmpl : NodeSpec) (records : List RawRecord) (N : Nat) (dc : String)
      (out : List (Nat × Row)),
      dateColOf tmpl = .ok dc →
      create_dataframe f tmpl records N = .ok out →
      List.Sorted (rle dc) (out.map Prod.snd) ∧
      out.map Prod.fst = List.range out.length := by
  intro f hf tmpl records N dc out hdc hout
  unfold create_dataframe at hout
  cases hrows : runChunks (format_values tmpl) (chunks records N) with
  | error e =>
    rw [hrows] at hout
    exact Except.noConfusion hout
  | ok rows =>
    rw [hrows, hdc] at hout
    have hout2 : Except.ok ((f dc rows).enum) = Except.ok out := hout
    injection hout2 with heq
    subst heq
    constructor
    · rw [show (f dc rows).enum.map Prod.snd = f dc rows from List.enumFrom_map_snd 0 _]
      exact (hf dc rows).2
    · have h1 : (f dc rows).enum.map Prod.fst = List.range' 0 (f dc rows).length :=
        List.enumFrom_map_fst 0 _
      have h2 : (f dc rows).enum.length = (f dc rows).length := by simp
      rw [h1, h2, List.range_eq_range']

/-- The table the fixture produces: sorted by date, densely reindexed. -/
def outW : List (Nat × Row) :=
  [(0, [("creation_date", Value.date ⟨2020, 4, 5⟩)]),
   (1, [("creation_date", Value.date ⟨2020, 4, 6⟩)])]

/-- Witness for the amended C5 theorem on the fixture table. -/
theorem create_dataframe_sorted_and_reindexed_witness :
    List.Sorted (rle "creation_date") (outW.map Prod.snd) ∧
    outW.map Prod.fst = List.range outW.length :=
  create_dataframe_sorted_and_reindexed pandasSortModel isPandasSort_pandasSortModel
    tmplW recsW 4 "creation_date" outW (by decide) (by decide)

/-! ## Workout-route file dates and the date filter -/

/-- `re.search(r'(\d{4}-\d{2}-\d{2})', filename)`: the leftmost occurrence of
a date-shaped substring (Python `\d` also covers non-ASCII digits; filenames
here are ASCII), combined with `parse` of the matched text (whose month/day
fields in scope are valid calendar values, where `parse` succeeds). -/
def searchDate : List Char → Option PDate
  | [] => none
  | c :: rest =>
    match dateAtHead (c :: rest) with
    | some d => some d
    | none => searchDate rest

/-- `AppleHealthParser.get_file_date` (parser.py lines 250-266): the date
found in the filename, or `parse('2099-01-01')` — the sentinel — when the
regex finds nothing. -/
def get_file_date (filename : String) : PDate :=
  (searchDate filename.toList).getD ⟨2099, 1, 1⟩

/-- `file_date >= from_date` — the retention test both `filter_nodes` (the
`FileReference` branch) and `get_gpx_files` apply. -/
def keepsFile (fromDate : PDate) (fname : String) : Bool :=
  decide (fromDate.rank ≤ (get_file_date fname).rank)

/-- The `FileReference` branch of `AppleHealthParser.filter_nodes`
(parser.py lines 291-297): the node is retained iff its file date is on or
after the cutoff. -/
def filter_file_reference (path : String) (fromDate : PDate) : Bool :=
  keepsFile fromDate path

/-- The filtering loop of `AppleHealthParser.get_gpx_files` (parser.py lines
319-328): keep the files whose date is on or after the cutoff, in order. -/
def get_gpx_files_filtered (gpx_files : List String) (fromDate : PDate) : List String :=
  gpx_files.filter (keepsFile fromDate)

/-- C10: a workout-route or `FileReference` filename containing no
`YYYY-MM-DD` substring gets the fixed sentinel date 2099-01-01 from
`get_file_date`, and therefore passes every date filter whose cutoff is
earlier than 2099-01-01: the `FileReference` branch of `filter_nodes` retains
it and `get_gpx_files` keeps it. -/
theorem undated_file_sentinel_retained :
    ∀ (fname : String), searchDate fname.toList = none →
      get_file_date fname = ⟨2099, 1, 1⟩ ∧
      ∀ (d : PDate), d.rank < (⟨2099, 1, 1⟩ : PDate).rank →
        filter_file_reference fname d = true ∧
        ∀ (files : List String), fname ∈ files →
          fname ∈ get_gpx_files_filtered files d := by
  intro fname h
  have hg : get_file_date fname = ⟨2099, 1, 1⟩ := by
    unfold get_file_date
    rw [h]
    rfl
  refine ⟨hg, fun d hd => ⟨?_, fun files hmem => ?_⟩⟩
  · unfold filter_file_reference keepsFile
    rw [hg]
    exact decide_eq_true (le_of_lt hd)
  · unfold get_gpx_files_filtered
    rw [List.mem_filter]
    refine ⟨hmem, ?_⟩
    unfold keepsFile
    rw [hg]
    exact decide_eq_true (le_of_lt hd)

/-- Witness for C10 at the undated fixture filename. -/
theorem undated_file_sentinel_retained_witness :
    get_file_date "route.gpx" = ⟨2099, 1, 1⟩ ∧
    filter_file_reference "route.gpx" ⟨2020, 4, 12⟩ = true ∧
    "route.gpx" ∈ get_gpx_files_filtered ["route.gpx"] ⟨2020, 4, 12⟩ := by
  have h := undated_file_sentinel_retained "route.gpx" (by decide)
  exact ⟨h.1, (h.2 ⟨2020, 4, 12⟩ (by decide)).1,
    (h.2 ⟨2020, 4, 12⟩ (by decide)).2 ["route.gpx"] (by decide)⟩
